import Mathlib

/-!
# DamageDetect — verification of the upload classification and batch
# assessment pipeline

Shallow embedding of the multi-file `POST /api/assessments` handler
(`registerRoutes`, replit.md revision of `server/routes.ts`, per-file loop),
of the AI-response validation (`server/ai-assessment.ts`,
`aiAssessmentResponseSchema` / `validateAIResponse`), and of the video
frame-extraction utilities (`video-utils.ts`: `extractVideoFrames`,
`getVideoMetadata`).

External effects (the OpenAI call, the database write, `Date.now()`,
`Math.random()`, the ffmpeg/ffprobe subprocesses and the filesystem) are
modelled by explicit per-item oracle records: each oracle value fixes one
possible outcome of the corresponding call, and theorems quantify over all
oracle values.
-/

namespace DamageDetect

/-! ## Data model -/

/-- The four condition grades (`grade: 'A' | 'B' | 'C' | 'D'`). -/
inductive Grade
  | A
  | B
  | C
  | D
deriving DecidableEq, Repr

/-- Letter rendering of a grade, as it appears in the JSON payloads. -/
def Grade.letter : Grade → String
  | .A => "A"
  | .B => "B"
  | .C => "C"
  | .D => "D"

/-- Finding severities (`severity: 'Low' | 'Medium' | 'High'`). -/
inductive Severity
  | Low
  | Medium
  | High
deriving DecidableEq, Repr

/-- One detailed finding (`DetailedFinding` interface in ai-assessment.ts). -/
structure Finding where
  category : String
  severity : Severity
  description : String
deriving DecidableEq, Repr

/-- Video metadata attached to a video-derived assessment
(`videoMetadata` field of `AIAssessmentResult`). Numbers are modelled as
rationals (JS numbers used for durations and frame rates). -/
structure VideoMeta where
  duration : Rat
  width : Nat
  height : Nat
  fps : Rat
  framesAnalyzed : Nat
deriving DecidableEq, Repr

/-- The validated assessment value (`AIAssessmentResult` in
ai-assessment.ts): grade, confidence, summary, damage types, findings,
processing time, and optional video metadata. -/
structure AIResult where
  grade : Grade
  confidence : Rat
  overallCondition : String
  damageTypes : List String
  detailedFindings : List Finding
  processingTime : Rat
  videoMetadata : Option VideoMeta
deriving DecidableEq, Repr

/-- Classification outcome for one uploaded file. -/
inductive MediaKind
  | Image
  | Video
  | Unsupported
deriving DecidableEq, Repr

/-- One uploaded file as the handler sees it (`Express.Multer.File`):
original filename, declared MIME type, and byte size. The byte buffer
itself never influences the handler's control flow except through the
oracle outcomes, so only its length is kept. -/
structure UFile where
  originalname : String
  mimetype : String
  size : Nat
deriving DecidableEq, Repr

/-! ## JavaScript string primitives

`String.prototype.startsWith`, `String.prototype.endsWith` and
`String.prototype.toLowerCase`, embedded on the character-list level
(JavaScript strings compare case-sensitively; `toLowerCase` is embedded
as ASCII lowercasing, which agrees with JS on every string the claims
touch). -/

/-- JS `s.startsWith(p)` — case-sensitive prefix test. -/
def jsStartsWith (s p : String) : Bool := p.data.isPrefixOf s.data

/-- JS `s.endsWith(p)` — case-sensitive suffix test. -/
def jsEndsWith (s p : String) : Bool := p.data.isSuffixOf s.data

/-- JS `s.toLowerCase()`. -/
def jsToLower (s : String) : String := ⟨s.data.map Char.toLower⟩

/-! ## Media classifier

Embedding of the per-file classification of the multi-file loop
(replit.md lines 481–487):

```js
const isImage = file.mimetype.startsWith('image/') ||
  (file.mimetype === 'application/octet-stream' &&
   file.originalname.match(/\.(heic|heif)$/i));
const isVideo = file.mimetype.startsWith('video/') ||
  file.mimetype === 'application/mp4' ||
  file.mimetype === 'video/x-mp4' ||
  (file.mimetype === 'application/octet-stream' &&
   file.originalname.match(/\.(mp4|webm|mov|avi|mkv)$/i));
```

`String.startsWith` and `===` in JavaScript are case-sensitive; only the
filename-extension regexes carry the `i` flag, embedded here by matching
against the lowercased filename. -/

/-- The test `originalname.match(/\.(heic|heif)$/i)` viewed as a Bool. -/
def hasImageExt (name : String) : Bool :=
  jsEndsWith (jsToLower name) ".heic" || jsEndsWith (jsToLower name) ".heif"

/-- The test `originalname.match(/\.(mp4|webm|mov|avi|mkv)$/i)` viewed as a Bool. -/
def hasVideoExt (name : String) : Bool :=
  jsEndsWith (jsToLower name) ".mp4" || jsEndsWith (jsToLower name) ".webm" ||
  jsEndsWith (jsToLower name) ".mov" || jsEndsWith (jsToLower name) ".avi" ||
  jsEndsWith (jsToLower name) ".mkv"

/-- The loop's `isImage` test. -/
def isImageFile (mime name : String) : Bool :=
  jsStartsWith mime "image/" ||
  (mime == "application/octet-stream" && hasImageExt name)

/-- The loop's `isVideo` test. -/
def isVideoFile (mime name : String) : Bool :=
  jsStartsWith mime "video/" ||
  mime == "application/mp4" ||
  mime == "video/x-mp4" ||
  (mime == "application/octet-stream" && hasVideoExt name)

/-- The classification the handler's branching realises: the `isImage`
branch is taken first, then the `isVideo` branch, otherwise the item is
rejected as an invalid file type. -/
def classify (mime name : String) : MediaKind :=
  if isImageFile mime name then .Image
  else if isVideoFile mime name then .Video
  else .Unsupported

/-! ## Batch orchestrator (per-file loop of POST /api/assessments)

Embedding of replit.md lines 476–585. Each loop iteration consumes one
file together with one `ItemEnv` oracle fixing the outcomes of the
external calls made for that file. -/

/-- Oracle for the external effects of one loop iteration:
* `imageCall` — outcome of `assessLaptopDamage` (ok value or thrown message);
* `videoCall` — outcome of `assessLaptopDamageFromVideo`;
* `nowMs` — value of `Date.now()` at sku generation;
* `randSuffix` — value of `Math.random().toString(36).substr(2, 9)`;
* `storeWrite` — outcome of `storage.createAssessment`. -/
structure ItemEnv where
  imageCall : Except String AIResult
  videoCall : Except String AIResult
  nowMs : Nat
  randSuffix : String
  storeWrite : Except String Unit
deriving Repr

/-- One entry pushed onto `results`: either
`{originalFileName, success: true, assessment: {...}}` (with the stored
row's sku) or `{originalFileName, success: false, error}`. -/
inductive BatchEntry
  | success (originalFileName : String) (sku : String) (assessment : AIResult)
  | failure (originalFileName : String) (error : String)
deriving DecidableEq, Repr

/-- The `originalFileName` of an entry. -/
def BatchEntry.name : BatchEntry → String
  | .success n _ _ => n
  | .failure n _ => n

/-- The `success` tag of an entry. -/
def BatchEntry.isSuccess : BatchEntry → Bool
  | .success _ _ _ => true
  | .failure _ _ => false

/-- The sku of a success entry. -/
def BatchEntry.skuOf : BatchEntry → Option String
  | .success _ s _ => some s
  | .failure _ _ => none

/-- The assessment of a success entry. -/
def BatchEntry.assessmentOf : BatchEntry → Option AIResult
  | .success _ _ a => some a
  | .failure _ _ => none

/-- The degraded placeholder substituted when `assessLaptopDamageFromVideo`
throws (replit.md lines 523–534). -/
def fallbackAiResult (msg : String) : AIResult :=
  { grade := .C
    confidence := mkRat 3 10
    overallCondition := "Video processing failed: " ++ msg
    damageTypes := ["Video Processing Error"]
    detailedFindings :=
      [{ category := "Overall Structure"
         severity := .Medium
         description :=
           "Video assessment could not be completed automatically. Error: "
           ++ msg ++ ". Manual review required." }]
    processingTime := mkRat 1 10
    videoMetadata := none }

/-- Sku generation (replit.md line 540):
`AUTO-${Date.now()}-${Math.random().toString(36).substr(2, 9)}`. -/
def mkSku (env : ItemEnv) : String :=
  "AUTO-" ++ toString env.nowMs ++ "-" ++ env.randSuffix

/-- One iteration of the per-file loop. Mirrors, in order: the
classification, the `Invalid file type` rejection, the image-only
100-byte minimum size check, the image or video assessment call (with the
degraded video fallback), the store write and the `results.push`; any
exception escaping to the per-file `catch` becomes a failure entry with
the thrown message. -/
def processItem (f : UFile) (env : ItemEnv) : BatchEntry :=
  let isImage := isImageFile f.mimetype f.originalname
  let isVideo := isVideoFile f.mimetype f.originalname
  if !isImage && !isVideo then
    .failure f.originalname "Invalid file type"
  else if isImage && f.size < 100 then
    .failure f.originalname "Image file appears to be corrupted or empty."
  else
    let aiOutcome : Except String AIResult :=
      if isImage then
        env.imageCall
      else
        match env.videoCall with
        | .ok r => .ok r
        | .error msg => .ok (fallbackAiResult msg)
    match aiOutcome with
    | .error msg => .failure f.originalname msg
    | .ok ai =>
      match env.storeWrite with
      | .error msg => .failure f.originalname msg
      | .ok _ => .success f.originalname (mkSku env) ai

/-- The whole loop: one entry pushed per file, in order. -/
def processBatch : List (UFile × ItemEnv) → List BatchEntry
  | [] => []
  | (f, env) :: rest => processItem f env :: processBatch rest

/-! ## AI response validation (Assessment Requestor)

Embedding of `aiAssessmentResponseSchema` and `validateAIResponse`
(ai-assessment.ts lines 22–46): the parsed model reply is an untyped JSON
value; zod's `.parse` accepts it only when every listed key is present
with the demanded shape (`z.enum` compares exact strings, `z.number()
.min(0).max(1)` checks the numeric range, arrays are checked elementwise)
and never coerces a value. JSON numbers are modelled as rationals. -/

/-- Untyped JSON values. -/
inductive JValue
  | jnull
  | jbool (b : Bool)
  | jnum (q : Rat)
  | jstr (s : String)
  | jarr (elems : List JValue)
  | jobj (fields : List (String × JValue))

/-- First binding of a key in a JSON object. -/
def jLookup : List (String × JValue) → String → Option JValue
  | [], _ => none
  | (k, v) :: rest, key => if k == key then some v else jLookup rest key

/-- Validation `z.enum(['A', 'B', 'C', 'D'])` on the `grade` field. -/
def parseGrade : JValue → Option Grade
  | .jstr s =>
    if s == "A" then some .A
    else if s == "B" then some .B
    else if s == "C" then some .C
    else if s == "D" then some .D
    else none
  | _ => none

/-- Label of a severity, as demanded by `z.enum(['Low', 'Medium', 'High'])`. -/
def Severity.label : Severity → String
  | .Low => "Low"
  | .Medium => "Medium"
  | .High => "High"

/-- Validation `z.enum(['Low', 'Medium', 'High'])` on the `severity` field. -/
def parseSeverity : JValue → Option Severity
  | .jstr s =>
    if s == "Low" then some .Low
    else if s == "Medium" then some .Medium
    else if s == "High" then some .High
    else none
  | _ => none

/-- Validation `z.string()`. -/
def parseStr : JValue → Option String
  | .jstr s => some s
  | _ => none

/-- Validation `z.number().min(0).max(1)` on the `confidence` field. -/
def parseConfidence : JValue → Option Rat
  | .jnum q => if 0 ≤ q ∧ q ≤ 1 then some q else none
  | _ => none

/-- Elementwise array validation (`z.array(...)`). -/
def parseArrayWith (p : JValue → Option α) : List JValue → Option (List α)
  | [] => some []
  | v :: rest =>
    match p v, parseArrayWith p rest with
    | some a, some tail => some (a :: tail)
    | _, _ => none

/-- Schema `detailedFindingSchema = z.object({category, severity, description})`. -/
def parseFinding : JValue → Option Finding
  | .jobj fields =>
    (jLookup fields "category").bind fun cv =>
    (parseStr cv).bind fun c =>
    (jLookup fields "severity").bind fun sv =>
    (parseSeverity sv).bind fun sev =>
    (jLookup fields "description").bind fun dv =>
    (parseStr dv).bind fun d =>
    some { category := c, severity := sev, description := d }
  | _ => none

/-- Validation `z.array(z.string())` on `damageTypes`. -/
def parseStrArray : JValue → Option (List String)
  | .jarr elems => parseArrayWith parseStr elems
  | _ => none

/-- Validation `z.array(detailedFindingSchema)` on `detailedFindings`. -/
def parseFindingArray : JValue → Option (List Finding)
  | .jarr elems => parseArrayWith parseFinding elems
  | _ => none

/-- The value `validateAIResponse` hands back to `assessLaptopDamage`
(the schema's five fields; `processingTime` is added by the caller). -/
structure AIResponse where
  grade : Grade
  confidence : Rat
  overallCondition : String
  damageTypes : List String
  detailedFindings : List Finding
deriving DecidableEq, Repr

/-- The function `validateAIResponse`: `aiAssessmentResponseSchema.parse` on the parsed
reply. A `none` result models the thrown
`Invalid AI response structure` error, which `assessLaptopDamage`
propagates, so a rejected reply never reaches the caller. -/
def validateAIResponse (v : JValue) : Option AIResponse :=
  match v with
  | .jobj fields =>
    (jLookup fields "grade").bind fun gv =>
    (parseGrade gv).bind fun g =>
    (jLookup fields "confidence").bind fun cv =>
    (parseConfidence cv).bind fun conf =>
    (jLookup fields "overallCondition").bind fun ov =>
    (parseStr ov).bind fun oc =>
    (jLookup fields "damageTypes").bind fun dv =>
    (parseStrArray dv).bind fun dts =>
    (jLookup fields "detailedFindings").bind fun fv =>
    (parseFindingArray fv).bind fun fnds =>
    some { grade := g, confidence := conf, overallCondition := oc,
           damageTypes := dts, detailedFindings := fnds }
  | _ => none

/-! ## Frame-rate string evaluation (getVideoMetadata)

video-utils.ts line 133 computes
`fps: eval(videoStream.r_frame_rate) || 0`: the probe's frame-rate string
is handed to the JavaScript `eval` builtin. `evalJsArith` embeds `eval`
restricted to integer arithmetic expression strings (sums of quotient
chains), the fragment that decides the claim: on this fragment `eval`
computes ordinary arithmetic, so any such expression — not only `"N/D"`
fraction strings — produces a number. Values are kept as unreduced
numerator/denominator pairs; a zero divisor (JS `Infinity`) and every
string outside the fragment are modelled as `none`. -/

/-- An unreduced fraction value. -/
structure Frac where
  num : Nat
  den : Nat
deriving DecidableEq, Repr

/-- Lex a leading decimal numeral. -/
def lexNat (cs : List Char) : Option (Nat × List Char) :=
  let ds := cs.takeWhile Char.isDigit
  if ds.isEmpty then none
  else some (ds.foldl (fun n c => 10 * n + (c.toNat - 48)) 0,
             cs.dropWhile Char.isDigit)

/-- Evaluate a chain of `/` divisions after an initial value. -/
def evalDivChain : Nat → Frac → List Char → Option (Frac × List Char)
  | 0, _, _ => none
  | _, acc, [] => some (acc, [])
  | fuel + 1, acc, c :: rest =>
    if c = '/' then
      match lexNat rest with
      | none => none
      | some (n, rest2) =>
        if n = 0 then none
        else evalDivChain fuel { num := acc.num, den := acc.den * n } rest2
    else some (acc, c :: rest)

/-- Evaluate one term: a numeral followed by its division chain. -/
def evalTerm (fuel : Nat) (cs : List Char) : Option (Frac × List Char) :=
  match lexNat cs with
  | none => none
  | some (n, rest) => evalDivChain fuel { num := n, den := 1 } rest

/-- Evaluate a chain of `+` additions after an initial term. -/
def evalSumChain : Nat → Frac → List Char → Option (Frac × List Char)
  | 0, _, _ => none
  | _, acc, [] => some (acc, [])
  | fuel + 1, acc, c :: rest =>
    if c = '+' then
      match evalTerm fuel rest with
      | none => none
      | some (t, rest2) =>
        evalSumChain fuel
          { num := acc.num * t.den + t.num * acc.den, den := acc.den * t.den }
          rest2
    else some (acc, c :: rest)

/-- JS `eval` on an arithmetic expression string (whitespace ignored, as in
JavaScript). -/
def evalJsArith (s : String) : Option Frac :=
  let cs := s.data.filter (fun c => c ≠ ' ')
  match evalTerm (cs.length + 1) cs with
  | none => none
  | some (t, rest) =>
    match evalSumChain (cs.length + 1) t rest with
    | some (q, []) => some q
    | _ => none

/-- The `fps` value `getVideoMetadata` derives from `r_frame_rate`:
`eval(videoStream.r_frame_rate) || 0`. -/
def fpsOfFrameRate (s : String) : Frac :=
  (evalJsArith s).getD { num := 0, den := 1 }

/-- Modelled from the spec: the dedicated numeric fraction parser that the
spec demands for frame-rate strings ("frame-rate values expressed as a
fraction string must be parsed arithmetically, never evaluated as
arbitrary code"); it accepts exactly the strings `"N/D"` with a nonzero
denominator, and nothing else. -/
def parseFractionSpec (s : String) : Option Frac :=
  match lexNat s.data with
  | none => none
  | some (n, rest) =>
    match rest with
    | '/' :: rest2 =>
      match lexNat rest2 with
      | some (d, []) => if d = 0 then none else some { num := n, den := d }
      | _ => none
    | _ => none

/-! ## Frame sampler temp-file lifecycle (extractVideoFrames)

Embedding of video-utils.ts lines 27–99, restricted to its effect on the
temporary files of one call. The call writes the buffer to a temp video
file, probes metadata (`getVideoMetadata` catches internally and never
throws), runs ffmpeg (which may write frame files `1..numFrames` and may
throw), then reads frames `1..numFrames` back, unlinking each frame after
a successful read, unlinks the video file, and reports failure when zero
frames were read. If any step throws, the `catch` block unlinks only the
video path. The sampling-interval computation (line 43) only shapes the
ffmpeg command line, which the `FfmpegRun` oracle abstracts. A frame read
succeeds exactly when the frame file exists. -/

/-- Temporary files created by one `extractVideoFrames` call. -/
inductive TempPath
  | video
  | frame (i : Nat)
deriving DecidableEq, Repr

/-- Oracle for the ffmpeg subprocess of one call: whether `execAsync`
resolves, which frame files ffmpeg wrote to disk before finishing or
dying, and the error message when it throws. -/
structure FfmpegRun where
  resolves : Bool
  framesWritten : List Nat
  errMsg : String

/-- The `VideoFrameExtractionResult` shape (success flag, frames read,
error message), with frames identified by index. -/
structure ExtractOutcome where
  success : Bool
  framesRead : List Nat
  error : Option String
deriving DecidableEq, Repr

/-- The read-back loop (lines 59–70): for each frame index, read the file
if it exists (collecting it and unlinking it), else warn and skip. Returns
the frames read and the files still on disk. -/
def readFramesLoop : List Nat → List TempPath → List Nat × List TempPath
  | [], onDisk => ([], onDisk)
  | i :: rest, onDisk =>
    if TempPath.frame i ∈ onDisk then
      let next := readFramesLoop rest (onDisk.erase (.frame i))
      (i :: next.1, next.2)
    else
      readFramesLoop rest onDisk

/-- One `extractVideoFrames(videoBuffer, numFrames)` call: the outcome it
reports and the temporary files of this call left on disk afterwards. -/
def extractVideoFramesRun (numFrames : Nat) (ff : FfmpegRun) :
    ExtractOutcome × List TempPath :=
  let afterWrite : List TempPath := [.video]
  if ff.resolves then
    let afterFfmpeg := afterWrite ++ ff.framesWritten.map .frame
    let rl := readFramesLoop ((List.range numFrames).map (· + 1)) afterFfmpeg
    let afterCleanup := rl.2.erase .video
    if rl.1.isEmpty then
      ({ success := false, framesRead := [],
         error := some "No frames could be extracted from video" },
       afterCleanup)
    else
      ({ success := true, framesRead := rl.1, error := none }, afterCleanup)
  else
    let afterFfmpeg := afterWrite ++ ff.framesWritten.map .frame
    ({ success := false, framesRead := [],
       error := some ("Video processing failed: " ++ ff.errMsg) },
     afterFfmpeg.erase .video)

/-! ## Sample values used by concrete scenarios -/

/-- A validated assessment value, as returned for a clean image. -/
def sampleAi : AIResult :=
  { grade := .A
    confidence := mkRat 95 100
    overallCondition := "Excellent condition"
    damageTypes := []
    detailedFindings := [{ category := "Screen", severity := .Low,
                           description := "No visible damage" }]
    processingTime := mkRat 2 1
    videoMetadata := none }

/-- Oracle of an item whose external calls all succeed. -/
def okImgEnv : ItemEnv :=
  { imageCall := .ok sampleAi
    videoCall := .ok sampleAi
    nowMs := 1700000000000
    randSuffix := "k3j9q2m1x"
    storeWrite := .ok () }

/-- Oracle of an item whose Record Store write throws after a valid
assessment was computed. -/
def badStoreEnv : ItemEnv :=
  { okImgEnv with storeWrite := .error "Database write failed" }

/-- Oracle of a video item whose `assessLaptopDamageFromVideo` call
throws, with a succeeding store write. -/
def vidFailEnv : ItemEnv :=
  { imageCall := .ok sampleAi
    videoCall := .error "ffmpeg died"
    nowMs := 1700000000123
    randSuffix := "zz9k2p0qa"
    storeWrite := .ok () }

/-! ## Helper lemmas -/

/-- Every branch of the loop body tags its entry with the file's own
`originalname`. -/
theorem processItem_name (f : UFile) (e : ItemEnv) :
    (processItem f e).name = f.originalname := by
  unfold processItem
  dsimp only
  repeat' split
  all_goals rfl

/-- The handler's branching classifies a file as Video exactly when the
`isImage` test fails and the `isVideo` test holds. -/
theorem classify_eq_video_iff (mime name : String) :
    classify mime name = .Video ↔
      isImageFile mime name = false ∧ isVideoFile mime name = true := by
  unfold classify
  by_cases h1 : isImageFile mime name = true
  · simp [h1]
  · have h1' : isImageFile mime name = false := by simpa using h1
    by_cases h2 : isVideoFile mime name = true
    · simp [h1', h2]
    · have h2' : isVideoFile mime name = false := by simpa using h2
      simp [h1', h2']

/-- The loop distributes over list concatenation. -/
theorem processBatch_append (xs ys : List (UFile × ItemEnv)) :
    processBatch (xs ++ ys) = processBatch xs ++ processBatch ys := by
  induction xs with
  | nil => rfl
  | cons hd tl ih =>
    obtain ⟨f, e⟩ := hd
    simp [processBatch, ih]

/-! ## Claims -/

/-- C1: for every batch accepted by the POST /api/assessments handler the
returned results sequence has exactly one entry per submitted file, and
the i-th entry carries the i-th file's `originalFileName` (an
order-preserving bijection between entries and submitted files), whatever
the outcomes of the per-item external calls. -/
theorem batch_results_match_submitted_files (items : List (UFile × ItemEnv)) :
    (processBatch items).length = items.length ∧
    ∀ i : Nat, ((processBatch items)[i]?).map BatchEntry.name =
      ((items[i]?).map fun p => p.1.originalname) := by
  induction items with
  | nil => exact ⟨rfl, fun i => by cases i <;> rfl⟩
  | cons hd tl ih =>
    obtain ⟨f, e⟩ := hd
    refine ⟨by simpa [processBatch] using ih.1, fun i => ?_⟩
    cases i with
    | zero => simp [processBatch, processItem_name]
    | succ n => simpa [processBatch] using ih.2 n

/-- C2: per-item failures are isolated: each batch entry is a function of
its own item and that item's external-call outcomes alone, so a failing
item contributes exactly its own Failure entry and every other item is
reported as it would be with the failing item absent; concretely, when the
store write throws for item 2 of a 3-item batch, items 1 and 3 still
appear as Success. -/
theorem batch_item_failures_isolated :
    (∀ (pre post : List (UFile × ItemEnv)) (f : UFile) (e : ItemEnv),
        processBatch (pre ++ (f, e) :: post) =
          processBatch pre ++ processItem f e :: processBatch post) ∧
    (∀ pre post : List (UFile × ItemEnv),
        processBatch (pre ++ post) = processBatch pre ++ processBatch post) ∧
    processBatch [(⟨"a.jpg", "image/jpeg", 200⟩, okImgEnv),
                  (⟨"b.jpg", "image/jpeg", 200⟩, badStoreEnv),
                  (⟨"c.jpg", "image/jpeg", 200⟩, okImgEnv)] =
      [.success "a.jpg" "AUTO-1700000000000-k3j9q2m1x" sampleAi,
       .failure "b.jpg" "Database write failed",
       .success "c.jpg" "AUTO-1700000000000-k3j9q2m1x" sampleAi] ∧
    processBatch [(⟨"a.jpg", "image/jpeg", 200⟩, okImgEnv),
                  (⟨"c.jpg", "image/jpeg", 200⟩, okImgEnv)] =
      [.success "a.jpg" "AUTO-1700000000000-k3j9q2m1x" sampleAi,
       .success "c.jpg" "AUTO-1700000000000-k3j9q2m1x" sampleAi] := by
  refine ⟨fun pre post f e => ?_, processBatch_append, by decide, by decide⟩
  rw [processBatch_append]
  rfl

/-- C3: a video item whose frame-extraction/assessment call throws is
given the degraded placeholder result — grade C, confidence 0.3,
damageTypes ["Video Processing Error"], every finding ending in "Manual
review required." — and its outcome is a Success entry when the
subsequent store write succeeds. -/
theorem video_failure_becomes_degraded_success (f : UFile) (e : ItemEnv)
    (msg : String)
    (hk : classify f.mimetype f.originalname = .Video)
    (hvideo : e.videoCall = .error msg)
    (hstore : e.storeWrite = .ok ()) :
    processItem f e = .success f.originalname (mkSku e) (fallbackAiResult msg) ∧
    (fallbackAiResult msg).grade = .C ∧
    (fallbackAiResult msg).confidence = mkRat 3 10 ∧
    (fallbackAiResult msg).damageTypes = ["Video Processing Error"] ∧
    ∀ fnd ∈ (fallbackAiResult msg).detailedFindings,
      jsEndsWith fnd.description "Manual review required." = true := by
  obtain ⟨himg, hvid⟩ := (classify_eq_video_iff f.mimetype f.originalname).1 hk
  refine ⟨?_, rfl, rfl, rfl, ?_⟩
  · simp [processItem, himg, hvid, hvideo, hstore]
  · intro fnd hf
    simp only [fallbackAiResult, List.mem_singleton] at hf
    subst hf
    unfold jsEndsWith
    rw [List.isSuffixOf_iff_suffix]
    dsimp only
    rw [String.data_append]
    exact List.IsSuffix.trans
      ((List.isSuffixOf_iff_suffix).1 (by decide))
      (List.suffix_append _ _)

/-- Witness for C3 at a concrete corrupt video upload. -/
theorem video_failure_becomes_degraded_success_witness :
    processItem ⟨"clip.mp4", "video/mp4", 4096⟩ vidFailEnv =
      .success "clip.mp4" (mkSku vidFailEnv) (fallbackAiResult "ffmpeg died") ∧
    (fallbackAiResult "ffmpeg died").grade = .C ∧
    (fallbackAiResult "ffmpeg died").confidence = mkRat 3 10 ∧
    (fallbackAiResult "ffmpeg died").damageTypes = ["Video Processing Error"] ∧
    ∀ fnd ∈ (fallbackAiResult "ffmpeg died").detailedFindings,
      jsEndsWith fnd.description "Manual review required." = true :=
  video_failure_becomes_degraded_success ⟨"clip.mp4", "video/mp4", 4096⟩
    vidFailEnv "ffmpeg died" (by decide) rfl rfl

/-- C5: extension-based fallback classification for generic binary
uploads — octet-stream plus a `.heic` name is an Image, plus `.mp4` a
Video, plus `.txt` Unsupported, and the `.txt` item is reported as an
`Invalid file type` Failure entry rather than raising. -/
theorem classifier_extension_rules :
    classify "application/octet-stream" "laptop.heic" = .Image ∧
    classify "application/octet-stream" "laptop.mp4" = .Video ∧
    classify "application/octet-stream" "laptop.txt" = .Unsupported ∧
    ∀ e : ItemEnv,
      processItem ⟨"laptop.txt", "application/octet-stream", 2048⟩ e =
        .failure "laptop.txt" "Invalid file type" := by
  refine ⟨by decide, by decide, by decide, fun e => rfl⟩

/-- C6 counterexample: changing the letter case of the declared MIME type
does change the classification — `IMAGE/JPEG` is Unsupported while
`image/jpeg` is Image — so the classifier is not case-insensitive on the
MIME type. -/
theorem classifier_mime_case_counterexample :
    classify "IMAGE/JPEG" "photo.jpg" ≠ classify "image/jpeg" "photo.jpg" ∧
    classify "IMAGE/JPEG" "photo.jpg" = .Unsupported ∧
    classify "image/jpeg" "photo.jpg" = .Image := by decide

/-- C6 (amended): the classification is case-insensitive in the filename
extension — two filenames with the same lowercasing always classify
identically under any MIME type — while the MIME comparison is
case-sensitive. -/
theorem classifier_filename_case_insensitive (mime n₁ n₂ : String)
    (h : jsToLower n₁ = jsToLower n₂) :
    classify mime n₁ = classify mime n₂ := by
  unfold classify isImageFile isVideoFile hasImageExt hasVideoExt
  rw [h]

/-- Witness for the amended C6 at `PHOTO.HEIC` / `photo.heic`. -/
theorem classifier_filename_case_insensitive_witness :
    jsToLower "PHOTO.HEIC" = jsToLower "photo.heic" ∧
    classify "application/octet-stream" "PHOTO.HEIC" =
      classify "application/octet-stream" "photo.heic" :=
  ⟨by decide,
   classifier_filename_case_insensitive "application/octet-stream"
     "PHOTO.HEIC" "photo.heic" (by decide)⟩

/-! ## Validation inversion lemmas -/

/-- An accepted grade field is exactly one of the four letters. -/
theorem parseGrade_inv (v : JValue) (g : Grade) (h : parseGrade v = some g) :
    v = .jstr g.letter := by
  cases v <;> try exact Option.noConfusion h
  case jstr s =>
    simp only [parseGrade] at h
    split_ifs at h with h1 h2 h3 h4
    · cases h; exact congrArg JValue.jstr (by simpa [Grade.letter] using h1)
    · cases h; exact congrArg JValue.jstr (by simpa [Grade.letter] using h2)
    · cases h; exact congrArg JValue.jstr (by simpa [Grade.letter] using h3)
    · cases h; exact congrArg JValue.jstr (by simpa [Grade.letter] using h4)

/-- An accepted severity field is exactly one of the three labels. -/
theorem parseSeverity_inv (v : JValue) (sev : Severity)
    (h : parseSeverity v = some sev) : v = .jstr sev.label := by
  cases v <;> try exact Option.noConfusion h
  case jstr s =>
    simp only [parseSeverity] at h
    split_ifs at h with h1 h2 h3
    · cases h; exact congrArg JValue.jstr (by simpa [Severity.label] using h1)
    · cases h; exact congrArg JValue.jstr (by simpa [Severity.label] using h2)
    · cases h; exact congrArg JValue.jstr (by simpa [Severity.label] using h3)

/-- An accepted confidence field is a JSON number lying in [0, 1]. -/
theorem parseConfidence_inv (v : JValue) (q : Rat)
    (h : parseConfidence v = some q) : v = .jnum q ∧ 0 ≤ q ∧ q ≤ 1 := by
  cases v <;> try exact Option.noConfusion h
  case jnum q' =>
    simp only [parseConfidence] at h
    split_ifs at h with hb
    simp only [Option.some.injEq] at h
    subst h
    exact ⟨rfl, hb.1, hb.2⟩

/-- Elementwise array acceptance: every element was accepted. -/
theorem parseArrayWith_mem {α : Type} (p : JValue → Option α) :
    ∀ (xs : List JValue) (ys : List α), parseArrayWith p xs = some ys →
      ∀ x ∈ xs, ∃ y, p x = some y := by
  intro xs
  induction xs with
  | nil => exact fun ys _ x hx => absurd hx (List.not_mem_nil x)
  | cons hd tl ih =>
    intro ys h x hx
    simp only [parseArrayWith] at h
    cases hph : p hd with
    | none => rw [hph] at h; exact Option.noConfusion h
    | some a =>
      rw [hph] at h
      cases hpt : parseArrayWith p tl with
      | none => rw [hpt] at h; exact Option.noConfusion h
      | some tail =>
        rw [hpt] at h
        rcases List.mem_cons.1 hx with rfl | hx'
        · exact ⟨a, hph⟩
        · exact ih tail hpt x hx'

/-- An accepted finding is an object whose severity field holds one of the
three enumerated labels. -/
theorem parseFinding_inv (v : JValue) (fnd : Finding)
    (h : parseFinding v = some fnd) :
    ∃ fields, v = .jobj fields ∧
      jLookup fields "severity" = some (.jstr fnd.severity.label) := by
  cases v <;> try exact Option.noConfusion h
  case jobj fields =>
    simp only [parseFinding, Option.bind_eq_some] at h
    obtain ⟨cv, hcv, c, hc, sv, hsv, sev, hsev, dv, hdv, d, hd, heq⟩ := h
    simp only [Option.some.injEq] at heq
    subst heq
    exact ⟨fields, rfl, by rw [hsv, parseSeverity_inv sv sev hsev]⟩

/-- An accepted findings value is an array accepted elementwise. -/
theorem parseFindingArray_inv (v : JValue) (l : List Finding)
    (h : parseFindingArray v = some l) :
    ∃ elems, v = .jarr elems ∧ parseArrayWith parseFinding elems = some l := by
  cases v <;> try exact Option.noConfusion h
  case jarr elems => exact ⟨elems, rfl, h⟩

/-- A model reply with the given grade, confidence and severity slots and
well-shaped remaining fields, as `assessLaptopDamage` would parse it. -/
def mkReply (gv cv sv : JValue) : JValue :=
  .jobj [("grade", gv), ("confidence", cv),
         ("overallCondition", .jstr "Good condition"),
         ("damageTypes", .jarr [.jstr "Scratches"]),
         ("detailedFindings",
          .jarr [.jobj [("category", .jstr "Screen"), ("severity", sv),
                        ("description", .jstr "Light scratches")]])]

/-- The validated value of the well-formed sample reply. -/
def goodResp : AIResponse :=
  { grade := .B
    confidence := mkRat 9 10
    overallCondition := "Good condition"
    damageTypes := ["Scratches"]
    detailedFindings := [{ category := "Screen", severity := .Low,
                           description := "Light scratches" }] }

/-- C4: the Assessment Requestor's validation accepts a parsed reply only
when the grade field is one of the four letters, the confidence field is
a number in [0, 1] and every findings entry carries an enumerated
severity, and it never coerces: the accepted grade and confidence are the
input's own field values. Replies with confidence 1.2, grade "E" or an
out-of-enum severity are rejected (validation returns none, modelling the
thrown error), while the well-formed sample reply is accepted. -/
theorem ai_response_validation_strict :
    (∀ (v : JValue) (r : AIResponse), validateAIResponse v = some r →
        0 ≤ r.confidence ∧ r.confidence ≤ 1 ∧
        ∃ fields, v = .jobj fields ∧
          jLookup fields "grade" = some (.jstr r.grade.letter) ∧
          jLookup fields "confidence" = some (.jnum r.confidence) ∧
          ∃ fvs, jLookup fields "detailedFindings" = some (.jarr fvs) ∧
            ∀ fv ∈ fvs, ∃ ffields sev, fv = .jobj ffields ∧
              jLookup ffields "severity" = some (.jstr (Severity.label sev))) ∧
    validateAIResponse
      (mkReply (.jstr "B") (.jnum (mkRat 12 10)) (.jstr "Low")) = none ∧
    validateAIResponse
      (mkReply (.jstr "E") (.jnum (mkRat 9 10)) (.jstr "Low")) = none ∧
    validateAIResponse
      (mkReply (.jstr "B") (.jnum (mkRat 9 10)) (.jstr "Critical")) = none ∧
    validateAIResponse
      (mkReply (.jstr "B") (.jnum (mkRat 9 10)) (.jstr "Low")) =
      some goodResp := by
  refine ⟨?_, by decide, by decide, by decide, by decide⟩
  intro v r h
  cases v <;> try exact Option.noConfusion h
  case jobj fields =>
    simp only [validateAIResponse, Option.bind_eq_some] at h
    obtain ⟨gv, hgv, g, hg, cv, hcv, conf, hconf, ov, hov, oc, hoc,
            dv, hdv, dts, hdts, fv, hfv, fnds, hfnds, heq⟩ := h
    simp only [Option.some.injEq] at heq
    subst heq
    obtain ⟨hcv', h0, h1⟩ := parseConfidence_inv cv conf hconf
    subst hcv'
    refine ⟨h0, h1, fields, rfl, ?_, hcv, ?_⟩
    · rw [hgv, parseGrade_inv gv g hg]
    · obtain ⟨elems, rfl, hpa⟩ := parseFindingArray_inv fv fnds hfnds
      refine ⟨elems, hfv, ?_⟩
      intro x hx
      obtain ⟨fnd, hfnd⟩ := parseArrayWith_mem parseFinding elems fnds hpa x hx
      obtain ⟨ffields, rfl, hsev⟩ := parseFinding_inv x fnd hfnd
      exact ⟨ffields, fnd.severity, rfl, hsev⟩

/-- Witness for C4 at the well-formed sample reply. -/
theorem ai_response_validation_strict_witness :
    0 ≤ goodResp.confidence ∧ goodResp.confidence ≤ 1 ∧
    ∃ fields,
      mkReply (.jstr "B") (.jnum (mkRat 9 10)) (.jstr "Low") = .jobj fields ∧
      jLookup fields "grade" = some (.jstr goodResp.grade.letter) ∧
      jLookup fields "confidence" = some (.jnum goodResp.confidence) ∧
      ∃ fvs, jLookup fields "detailedFindings" = some (.jarr fvs) ∧
        ∀ fv ∈ fvs, ∃ ffields sev, fv = .jobj ffields ∧
          jLookup ffields "severity" = some (.jstr (Severity.label sev)) :=
  ai_response_validation_strict.1
    (mkReply (.jstr "B") (.jnum (mkRat 9 10)) (.jstr "Low")) goodResp
    (by decide)

/-- C7: `getVideoMetadata` computes fps by handing the frame-rate string
to the generic JavaScript expression evaluator (`eval`), not to a
dedicated fraction parser: the code's evaluation accepts and computes the
non-fraction expression "2+3" (yielding 5), which the spec's dedicated
`N/D` parser rejects; on genuine fraction strings such as "30/1" and
"30000/1001" the two agree. -/
theorem frame_rate_eval_executes_expressions :
    fpsOfFrameRate "30/1" = { num := 30, den := 1 } ∧
    parseFractionSpec "30/1" = some { num := 30, den := 1 } ∧
    fpsOfFrameRate "2+3" = { num := 5, den := 1 } ∧
    parseFractionSpec "2+3" = none ∧
    fpsOfFrameRate "30000/1001" = { num := 30000, den := 1001 } := by decide

/-- C8: `extractVideoFrames` does not delete every temporary frame file on
every exit path: when ffmpeg throws after having written frame 1's file,
the catch block unlinks only the temporary video, and frame 1's file
remains on disk; on the fully successful path every temporary file of the
call is removed. -/
theorem extract_frames_cleanup_incomplete :
    (extractVideoFramesRun 3
        { resolves := false, framesWritten := [1],
          errMsg := "ffmpeg exited with code 1" }).2 = [.frame 1] ∧
    (extractVideoFramesRun 3
        { resolves := true, framesWritten := [1, 2, 3],
          errMsg := "" }).2 = [] := by decide

/-- C9 counterexample: two distinct files of one batch whose iterations
observe the same `Date.now()` millisecond and the same `Math.random()`
suffix are both persisted with the identical sku, so the generated skus
are not unconditionally pairwise distinct. -/
theorem sku_collision_counterexample :
    processBatch [(⟨"a.jpg", "image/jpeg", 200⟩, okImgEnv),
                  (⟨"b.jpg", "image/jpeg", 200⟩, okImgEnv)] =
      [.success "a.jpg" "AUTO-1700000000000-k3j9q2m1x" sampleAi,
       .success "b.jpg" "AUTO-1700000000000-k3j9q2m1x" sampleAi] := by decide

/-- Characters of a dash-free list are the maximal dash-free prefix of the
list followed by a dash. -/
theorem takeWhile_no_dash_append (l rest : List Char)
    (hl : ∀ c ∈ l, c ≠ '-') :
    List.takeWhile (fun c => c != '-') (l ++ '-' :: rest) = l := by
  induction l with
  | nil => simp [List.takeWhile_cons]
  | cons hd tl ih =>
    have hhd : hd ≠ '-' := hl hd (List.mem_cons_self hd tl)
    simp [List.takeWhile_cons, hhd,
          ih fun c hc => hl c (List.mem_cons_of_mem hd hc)]

/-- Right cancellation across a dash separator for dash-free suffixes. -/
theorem append_dash_suffix_inj (p₁ p₂ s₁ s₂ : List Char)
    (h₁ : ∀ c ∈ s₁, c ≠ '-') (h₂ : ∀ c ∈ s₂, c ≠ '-')
    (h : p₁ ++ '-' :: s₁ = p₂ ++ '-' :: s₂) : s₁ = s₂ := by
  have hrev := congrArg List.reverse h
  simp only [List.reverse_append, List.reverse_cons, List.append_assoc,
             List.singleton_append] at hrev
  have htw := congrArg (List.takeWhile (fun c => c != '-')) hrev
  rw [takeWhile_no_dash_append _ _ fun c hc => h₁ c (List.mem_reverse.1 hc),
      takeWhile_no_dash_append _ _ fun c hc => h₂ c (List.mem_reverse.1 hc)]
    at htw
  exact List.reverse_inj.1 htw

/-- C9 (amended): the sku combines `AUTO-`, the timestamp and a random
suffix; two items whose random suffixes differ (suffixes are dash-free
base-36 output) always receive distinct skus, but uniqueness is only as
strong as the random source — identical timestamp-and-suffix draws
collide, as the counterexample shows. -/
theorem sku_distinct_of_distinct_suffixes (e₁ e₂ : ItemEnv)
    (h₁ : ∀ c ∈ e₁.randSuffix.data, c ≠ '-')
    (h₂ : ∀ c ∈ e₂.randSuffix.data, c ≠ '-')
    (hne : e₁.randSuffix ≠ e₂.randSuffix) :
    mkSku e₁ ≠ mkSku e₂ := by
  intro hEq
  apply hne
  apply String.ext
  have h0 := congrArg String.data hEq
  simp only [mkSku, String.data_append] at h0
  have h0' : ("AUTO-".data ++ (toString e₁.nowMs).data) ++
        '-' :: e₁.randSuffix.data =
      ("AUTO-".data ++ (toString e₂.nowMs).data) ++
        '-' :: e₂.randSuffix.data := by
    simpa [List.append_assoc, List.singleton_append] using h0
  exact append_dash_suffix_inj _ _ _ _ h₁ h₂ h0'

/-- Witness for the amended C9 at two concrete random suffixes. -/
theorem sku_distinct_of_distinct_suffixes_witness :
    (∀ c ∈ okImgEnv.randSuffix.data, c ≠ '-') ∧
    mkSku okImgEnv ≠ mkSku vidFailEnv :=
  ⟨by decide,
   sku_distinct_of_distinct_suffixes okImgEnv vidFailEnv
     (by decide) (by decide) (by decide)⟩

/-- C10: the 100-byte minimum-size pre-check is applied only to
image-classified files — a video-classified item's outcome is independent
of its byte size — and a zero-byte video whose extraction call throws
still yields a Success entry carrying the degraded grade-C placeholder
(given a succeeding store write), not a size-based Failure. -/
theorem size_precheck_applies_only_to_images :
    (∀ (f : UFile) (e : ItemEnv) (n : Nat),
        classify f.mimetype f.originalname = .Video →
        processItem { f with size := n } e = processItem f e) ∧
    (∀ (f : UFile) (e : ItemEnv) (msg : String),
        classify f.mimetype f.originalname = .Video → f.size = 0 →
        e.videoCall = .error msg → e.storeWrite = .ok () →
        (processItem f e).isSuccess = true ∧
        (processItem f e).assessmentOf = some (fallbackAiResult msg) ∧
        (fallbackAiResult msg).grade = .C) := by
  constructor
  · intro f e n hk
    obtain ⟨himg, hvid⟩ := (classify_eq_video_iff _ _).1 hk
    simp [processItem, himg, hvid]
  · intro f e msg hk h0 hv hs
    obtain ⟨himg, hvid⟩ := (classify_eq_video_iff _ _).1 hk
    refine ⟨?_, ?_, rfl⟩ <;>
      simp [processItem, BatchEntry.isSuccess, BatchEntry.assessmentOf,
            himg, hvid, hv, hs]

/-- Witness for C10 at a concrete zero-byte video upload. -/
theorem size_precheck_applies_only_to_images_witness :
    processItem ⟨"empty.mp4", "video/mp4", 37⟩ vidFailEnv =
      processItem ⟨"empty.mp4", "video/mp4", 0⟩ vidFailEnv ∧
    (processItem ⟨"empty.mp4", "video/mp4", 0⟩ vidFailEnv).isSuccess = true ∧
    (processItem ⟨"empty.mp4", "video/mp4", 0⟩ vidFailEnv).assessmentOf =
      some (fallbackAiResult "ffmpeg died") ∧
    (fallbackAiResult "ffmpeg died").grade = .C :=
  ⟨size_precheck_applies_only_to_images.1 ⟨"empty.mp4", "video/mp4", 0⟩
     vidFailEnv 37 (by decide),
   size_precheck_applies_only_to_images.2 ⟨"empty.mp4", "video/mp4", 0⟩
     vidFailEnv "ffmpeg died" (by decide) rfl rfl rfl⟩

end DamageDetect
